import Mathlib

/-!
Verification development for the securechat signaling relay and retention
subsystem (src/server/routes.ts).

The WebSocket relay keeps a `connectedClients` map from user id to socket.
An inbound JSON message either binds an identity (auth forms) or is relayed
to the socket registered under its `target` field.  The retention layer
classifies conversations as due for clearing from their `autoClearAfter`
policy and `lastMessageAt` timestamp, and clears due conversations by
deleting their messages and stamping `lastClearedAt`.

Sockets are identified by a `Nat` handle; a JS `Map` is embedded as an
association list whose keys are kept duplicate-free (the `Map` guarantee),
with `mapSet` replacing in place and `mapDelete` removing the entry.
Timestamps are epoch milliseconds as `Int` (`Date.getTime()`); the SQL
comparisons on ISO strings in `getConversationsToClean` order exactly as
the underlying instants do.
-/

namespace SecureChat

/-- JS truthiness of an optional string field: `undefined` and `""` are
falsy, every other string is truthy. -/
def truthy : Option String → Bool
  | none => false
  | some s => s ≠ ""

/-- WebSocket ready states; `OPEN` is the `WebSocket.OPEN` constant the
code compares against. -/
inductive ReadyState where
  | CONNECTING
  | OPEN
  | CLOSING
  | CLOSED
deriving DecidableEq, Repr

/-- The parsed shape of an inbound WebSocket message
(`SignalingMessage & \x7b userId?: string \x7d` in routes.ts):
`type`, `target`, `userId`, the opaque `data` payload and
`conversationId`. -/
structure InMsg where
  type : Option String
  target : Option String
  userId : Option String
  data : Option String
  conversationId : Option Int
deriving DecidableEq, Repr

/-- Per-socket state: the `ws.userId` property (unset until an auth
message binds it) and the transport ready state. -/
structure ConnState where
  userId : Option String
  readyState : ReadyState
deriving DecidableEq, Repr

/-- `mapGet m k`: JS `Map.get` on the association-list embedding. -/
def mapGet {α β : Type} [DecidableEq α] : List (α × β) → α → Option β
  | [], _ => none
  | p :: rest, k => if p.1 = k then some p.2 else mapGet rest k

/-- `mapSet m k v`: JS `Map.set` — replaces the entry for `k` in place
when present (a `Map` holds at most one entry per key), else appends. -/
def mapSet {α β : Type} [DecidableEq α] : List (α × β) → α → β → List (α × β)
  | [], k, v => [(k, v)]
  | p :: rest, k, v => if p.1 = k then (k, v) :: rest else p :: mapSet rest k v

/-- `mapDelete m k`: JS `Map.delete` — removes the (unique) entry for `k`;
on the association list this removes every pair keyed `k`, which agrees
with `Map.delete` under the one-entry-per-key invariant. -/
def mapDelete {α β : Type} [DecidableEq α] (m : List (α × β)) (k : α) : List (α × β) :=
  m.filter (fun p => p.1 ≠ k)

/-- The keys of an association-list map. -/
def keysOf {α β : Type} (m : List (α × β)) : List α := m.map (·.1)

/-- Server state around the `wss.on('connection', ...)` handlers: the set
of live sockets with their per-socket state, and the `connectedClients`
map from user id to socket. -/
structure ServerState where
  conns : List (Nat × ConnState)
  connectedClients : List (String × Nat)
deriving DecidableEq, Repr

/-- `ws.userId = u` on socket `c`: updates that socket's record, leaving
its ready state and every other socket untouched. -/
def connsSetUser : List (Nat × ConnState) → Nat → String → List (Nat × ConnState)
  | [], _, _ => []
  | p :: rest, c, u =>
      (if p.1 = c then (p.1, { p.2 with userId := some u }) else p) :: connsSetUser rest c u

/-- The identity currently bound to socket `c` (`ws.userId`). -/
def boundOf (st : ServerState) (c : Nat) : Option String :=
  (mapGet st.conns c).bind (·.userId)

/-- The ready state of socket `c` (`ws.readyState`). -/
def readyOf (st : ServerState) (c : Nat) : Option ReadyState :=
  (mapGet st.conns c).map (·.readyState)

/-- One message forwarded by the relay: the target socket and the object
`\x7b ...data, from: ws.userId \x7d` — every field of the inbound message
spread-copied, plus `from` set to the sender's bound identity. -/
structure OutMsg where
  msg : InMsg
  fromUser : String
deriving DecidableEq, Repr

structure Delivery where
  toConn : Nat
  payload : OutMsg
deriving DecidableEq, Repr

/-- First auth form (routes.ts line 237): `data.userId && !data.type`. -/
def isAuthBind (m : InMsg) : Bool := truthy m.userId && !(truthy m.type)

/-- Second auth form (routes.ts line 244):
`data.type === 'auth' && data.userId`. -/
def isAuthTyped (m : InMsg) : Bool := (m.type = some "auth" : Bool) && truthy m.userId

/-- The seven recognized signaling kinds of the `SignalingMessage` type. -/
def signalKinds : List String :=
  ["offer", "answer", "ice-candidate", "call-start", "call-end", "call-accept", "call-reject"]

/-- The first auth form as sent by the client: a message carrying only a
`userId` (no `type`), which `handleMessage` treats as binding. -/
def authMsg (u : String) : InMsg :=
  { type := none, target := none, userId := some u, data := none, conversationId := none }

/-- The `ws.on('message', ...)` handler of routes.ts lines 232-273.
Auth forms bind `ws.userId` and register the socket in
`connectedClients` (no forwarding).  Otherwise, when `ws.userId` and
`data.target` are both truthy, the target is looked up and, if its
socket is `OPEN`, the message is sent there with `from` attached; in
every other case nothing is sent and the state is unchanged.  Returns
the new state and the list of sends performed. -/
def handleMessage (st : ServerState) (c : Nat) (m : InMsg) :
    ServerState × List Delivery :=
  if isAuthBind m || isAuthTyped m then
    match m.userId with
    | some u =>
        ({ conns := connsSetUser st.conns c u,
           connectedClients := mapSet st.connectedClients u c }, [])
    | none => (st, [])
  else
    match boundOf st c, m.target with
    | some u, some t =>
        -- `if (ws.userId && data.target)`: truthiness of both strings
        if u ≠ "" ∧ t ≠ "" then
          match mapGet st.connectedClients t with
          | some tc =>
              if readyOf st tc = some ReadyState.OPEN then
                (st, [{ toConn := tc, payload := { msg := m, fromUser := u } }])
              else (st, [])
          | none => (st, [])
        else (st, [])
    | _, _ => (st, [])

/-- The `ws.on('close', ...)` handler of routes.ts lines 275-280:
`if (ws.userId) connectedClients.delete(ws.userId)` — unconditionally
deletes the map entry for the socket's bound identity, without checking
whether the entry still points at this socket. -/
def handleClose (st : ServerState) (c : Nat) : ServerState :=
  match boundOf st c with
  | some u =>
      if u ≠ "" then { st with connectedClients := mapDelete st.connectedClients u }
      else st
  | none => st

/-- The event object passed to `broadcastMessage` at its call site
(routes.ts line 125): `\x7b type: 'new-message', data: message \x7d`. -/
structure BroadcastEvent where
  type : String
  data : String
deriving DecidableEq, Repr

/-- The object a broadcast sends:
`\x7b type: 'broadcast', conversationId, ...message \x7d` — the spread
comes last, so the event's own `type` overrides `'broadcast'`, while
`conversationId` stays (the event carries no such field). -/
structure BroadcastSent where
  type : String
  conversationId : Nat
  data : String
deriving DecidableEq, Repr

/-- One send attempt of a broadcast: the target socket, the object sent,
and whether the transport accepted it.  `ws.send` on an `OPEN` socket
reports failure asynchronously (callback/error event), never by a
synchronous throw, so a failure cannot break out of the `forEach`; the
outcome oracle `fails` records which sockets' sends fail. -/
structure SendAttempt where
  toConn : Nat
  sent : BroadcastSent
  ok : Bool
deriving DecidableEq, Repr

/-- `broadcastMessage` (routes.ts lines 287-297): iterates every entry of
`connectedClients` and sends the tagged event to each socket whose ready
state is `OPEN`, regardless of which identity the entry binds. -/
def broadcastMessage (st : ServerState) (conversationId : Nat)
    (message : BroadcastEvent) (fails : Nat → Bool) : List SendAttempt :=
  st.connectedClients.filterMap (fun p =>
    if readyOf st p.2 = some ReadyState.OPEN then
      some { toConn := p.2,
             sent := { type := message.type, conversationId := conversationId,
                       data := message.data },
             ok := !fails p.2 }
    else none)

/-! ## Retention -/

/-- A row of the `conversations` table (shared/schema.ts): participants,
`lastMessageAt`, the `autoClearAfter` policy string, and the nullable
`lastClearedAt`. -/
structure Conversation where
  id : Nat
  participant1Id : String
  participant2Id : String
  lastMessageAt : Int
  autoClearAfter : String
  lastClearedAt : Option Int
deriving DecidableEq, Repr

/-- A row of the `messages` table. -/
structure Message where
  id : Nat
  conversationId : Nat
  senderId : String
  content : String
  createdAt : Int
deriving DecidableEq, Repr

def msPerDay : Int := 24 * 60 * 60 * 1000

/-- The WHERE clause of `getConversationsToClean` (routes.ts lines
577-595): a disjunction over the three timed policies, each requiring
`lastMessageAt < now - threshold` (a strict comparison — `oneDayAgo` is
`now - 24h` and the SQL test is `<`). -/
def dueClause (now : Int) (c : Conversation) : Bool :=
  ((c.autoClearAfter = "24h" : Bool) && decide (c.lastMessageAt < now - msPerDay)) ||
  ((c.autoClearAfter = "1week" : Bool) && decide (c.lastMessageAt < now - 7 * msPerDay)) ||
  ((c.autoClearAfter = "30days" : Bool) && decide (c.lastMessageAt < now - 30 * msPerDay))

/-- `DatabaseStorage.getConversationsToClean` (routes.ts lines 571-596):
selects the conversations satisfying the due clause at time `now`. -/
def getConversationsToClean (convs : List Conversation) (now : Int) :
    List Conversation :=
  convs.filter (dueClause now)

/-- The spec's retention threshold table (§4.4): hours→ms per policy;
`never` (and any other string) has no threshold. -/
def threshold : String → Option Int
  | "24h" => some msPerDay
  | "1week" => some (7 * msPerDay)
  | "30days" => some (30 * msPerDay)
  | _ => none

/-- The spec's classifier, written from its words (§4.4): due iff the
policy is not `never` and `now − lastActivity ≥ threshold`.  Kept
separate from `dueClause` so the two can be compared. -/
def isDueSpec (c : Conversation) (now : Int) : Bool :=
  match threshold c.autoClearAfter with
  | some th => decide (th ≤ now - c.lastMessageAt)
  | none => false

/-- The durable state the retention layer touches: the conversations and
messages tables. -/
structure Store where
  conversations : List Conversation
  messages : List Message
deriving DecidableEq, Repr

/-- `DatabaseStorage.clearConversationMessages` (routes.ts lines
559-569): deletes every message of the conversation, then sets its
`lastClearedAt` to the current time.  `lastMessageAt` and the policy are
untouched. -/
def clearConversationMessages (st : Store) (conversationId : Nat) (now : Int) :
    Store :=
  { conversations := st.conversations.map (fun c =>
      if c.id = conversationId then { c with lastClearedAt := some now } else c),
    messages := st.messages.filter (fun m => m.conversationId ≠ conversationId) }

/-- Modelled from the spec: the periodic timer that drives the retention
sweep is not under src/ — only the storage operations it composes are.
Per §4.5 a sweep enumerates the conversations, filters them through the
classifier (`getConversationsToClean`) and clears each due conversation
with `clearConversationMessages`. -/
def sweep (st : Store) (now : Int) : Store :=
  (getConversationsToClean st.conversations now).foldl
    (fun s c => clearConversationMessages s c.id now) st

/-- The messages belonging to one conversation. -/
def msgsFor (st : Store) (conversationId : Nat) : List Message :=
  st.messages.filter (fun m => m.conversationId = conversationId)

/-! ## Concrete sample data for closed-instance checks -/

/-- Two sockets, bound to `alice` and `bob`, both registered and OPEN. -/
def stAB : ServerState :=
  { conns := [(1, { userId := some "alice", readyState := ReadyState.OPEN }),
              (2, { userId := some "bob", readyState := ReadyState.OPEN })],
    connectedClients := [("alice", 1), ("bob", 2)] }

/-- Socket 3 has not bound an identity; `bob` is registered on socket 2. -/
def stUnbound : ServerState :=
  { conns := [(3, { userId := none, readyState := ReadyState.OPEN }),
              (2, { userId := some "bob", readyState := ReadyState.OPEN })],
    connectedClients := [("bob", 2)] }

/-- Two fresh sockets, neither authenticated yet. -/
def stTwoSockets : ServerState :=
  { conns := [(1, { userId := none, readyState := ReadyState.OPEN }),
              (2, { userId := none, readyState := ReadyState.OPEN })],
    connectedClients := [] }

/-- `stTwoSockets` after socket 1 authenticates as `u`. -/
def stW1 : ServerState :=
  { conns := [(1, { userId := some "u", readyState := ReadyState.OPEN }),
              (2, { userId := none, readyState := ReadyState.OPEN })],
    connectedClients := [("u", 1)] }

/-- `stW1` after socket 2 also authenticates as `u` (silent takeover). -/
def stW2 : ServerState :=
  { conns := [(1, { userId := some "u", readyState := ReadyState.OPEN }),
              (2, { userId := some "u", readyState := ReadyState.OPEN })],
    connectedClients := [("u", 2)] }

/-- `stW2` after socket 1's close event fires. -/
def stW3 : ServerState :=
  { conns := [(1, { userId := some "u", readyState := ReadyState.OPEN }),
              (2, { userId := some "u", readyState := ReadyState.OPEN })],
    connectedClients := [] }

def offerMsg : InMsg :=
  { type := some "offer", target := some "bob", userId := none,
    data := some "sdp-offer", conversationId := some 7 }

def bogusMsg : InMsg :=
  { type := some "bogus", target := some "bob", userId := none,
    data := some "xyz", conversationId := none }

/-- A signaling message whose target has never registered. -/
def ghostMsg : InMsg :=
  { type := some "call-start", target := some "ghost", userId := none,
    data := some "xyz", conversationId := none }

def convA : Conversation :=
  { id := 1, participant1Id := "alice", participant2Id := "bob",
    lastMessageAt := 0, autoClearAfter := "24h", lastClearedAt := none }

def msgA : Message :=
  { id := 10, conversationId := 1, senderId := "alice", content := "hi", createdAt := 0 }

def storeA : Store := { conversations := [convA], messages := [msgA] }

/-- A conversation neither `alice` nor `bob` participates in. -/
def convCD : Conversation :=
  { id := 9, participant1Id := "carol", participant2Id := "dave",
    lastMessageAt := 0, autoClearAfter := "never", lastClearedAt := none }

def evA : BroadcastEvent := { type := "new-message", data := "payload" }

/-- A send-failure oracle under which every socket except 2 fails. -/
def failsAllButTwo : Nat → Bool := fun n => n != 2

/-! ## Map and handler lemmas -/

theorem mapGet_mapSet_self {α β : Type} [DecidableEq α] (m : List (α × β)) (k : α) (v : β) :
    mapGet (mapSet m k v) k = some v := by
  induction m with
  | nil => simp [mapSet, mapGet]
  | cons p rest ih =>
      by_cases h : p.1 = k
      · simp [mapSet, h, mapGet]
      · simp [mapSet, h, mapGet, ih]

theorem mapGet_mapSet_ne {α β : Type} [DecidableEq α] (m : List (α × β)) (k k' : α) (v : β)
    (h : k' ≠ k) : mapGet (mapSet m k v) k' = mapGet m k' := by
  induction m with
  | nil => simp [mapSet, mapGet, Ne.symm h]
  | cons p rest ih =>
      by_cases hp : p.1 = k
      · simp [mapSet, hp, mapGet, h, Ne.symm h]
      · by_cases hp' : p.1 = k'
        · simp [mapSet, hp, mapGet, hp', h]
        · simp [mapSet, hp, mapGet, hp', ih]

theorem mem_keysOf_mapSet {α β : Type} [DecidableEq α] (m : List (α × β)) (k a : α) (v : β) :
    a ∈ keysOf (mapSet m k v) ↔ a ∈ keysOf m ∨ a = k := by
  induction m with
  | nil => simp [mapSet, keysOf]
  | cons p rest ih =>
      by_cases h : p.1 = k
      · subst h
        simp [mapSet, keysOf]
        tauto
      · simp [mapSet, h, keysOf] at ih ⊢
        tauto

theorem nodup_keysOf_mapSet {α β : Type} [DecidableEq α] (m : List (α × β)) (k : α) (v : β)
    (h : (keysOf m).Nodup) : (keysOf (mapSet m k v)).Nodup := by
  induction m with
  | nil => simp [mapSet, keysOf]
  | cons p rest ih =>
      simp only [keysOf, List.map_cons, List.nodup_cons] at h
      by_cases hp : p.1 = k
      · subst hp
        simp only [mapSet, if_pos rfl]
        simpa [keysOf, List.nodup_cons] using h
      · have hrest := ih h.2
        have hne : p.1 ∉ keysOf (mapSet rest k v) := by
          intro hmem
          rcases (mem_keysOf_mapSet rest k p.1 v).mp hmem with h1 | h1
          · exact h.1 (by simpa [keysOf] using h1)
          · exact hp h1
        simp only [mapSet, if_neg hp]
        simpa [keysOf, List.nodup_cons] using And.intro hne hrest

theorem mapGet_mapDelete_self {α β : Type} [DecidableEq α] (m : List (α × β)) (k : α) :
    mapGet (mapDelete m k) k = none := by
  induction m with
  | nil => simp [mapDelete, mapGet]
  | cons p rest ih =>
      by_cases h : p.1 = k
      · simpa [mapDelete, h] using ih
      · simpa [mapDelete, h, mapGet] using ih

theorem mapGet_connsSetUser (l : List (Nat × ConnState)) (c c' : Nat) (u : String) :
    mapGet (connsSetUser l c u) c' =
      if c' = c then (mapGet l c').map (fun cs => { cs with userId := some u })
      else mapGet l c' := by
  induction l with
  | nil => simp [connsSetUser, mapGet]
  | cons p rest ih =>
      by_cases h1 : p.1 = c
      · by_cases h2 : c' = c
        · subst h2
          simp [connsSetUser, h1, mapGet]
        · have h2' : ¬c = c' := fun hh => h2 hh.symm
          simp [connsSetUser, h1, mapGet, h2, h2', ih]
      · by_cases h2 : p.1 = c'
        · subst h2
          simp [connsSetUser, h1, mapGet]
        · simp [connsSetUser, h1, mapGet, h2, ih]

/-- Binding never changes any socket's ready state. -/
theorem readyOf_after_setUser (st : ServerState) (cc : List (String × Nat))
    (c c' : Nat) (u : String) :
    readyOf { conns := connsSetUser st.conns c u, connectedClients := cc } c' =
      readyOf st c' := by
  simp only [readyOf, mapGet_connsSetUser]
  by_cases h : c' = c
  · simp [h, Option.map_map]
    cases mapGet st.conns c <;> rfl
  · simp [h]

/-- The effect of an auth-form message: bind `ws.userId` and register the
socket under the declared identity; nothing is forwarded. -/
theorem handleMessage_authMsg (st : ServerState) (c : Nat) (u : String) (hu : u ≠ "") :
    handleMessage st c (authMsg u) =
      ({ conns := connsSetUser st.conns c u,
         connectedClients := mapSet st.connectedClients u c }, []) := by
  simp [handleMessage, authMsg, isAuthBind, isAuthTyped, truthy, hu]

theorem signalKinds_ne (k : String) (hk : k ∈ signalKinds) : k ≠ "" ∧ k ≠ "auth" := by
  simp only [signalKinds, List.mem_cons, List.mem_singleton, List.not_mem_nil, or_false] at hk
  rcases hk with rfl | rfl | rfl | rfl | rfl | rfl | rfl <;> exact ⟨by decide, by decide⟩

/-- A message typed with a recognized signaling kind is not an auth form. -/
theorem not_auth_of_signalKind (m : InMsg) (k : String) (htype : m.type = some k)
    (hk : k ∈ signalKinds) : isAuthBind m = false ∧ isAuthTyped m = false := by
  obtain ⟨h1, h2⟩ := signalKinds_ne k hk
  constructor
  · simp [isAuthBind, truthy, htype, h1]
  · simp [isAuthTyped, htype, h2]

/-! ## Retention lemmas -/

/-- Clearing one conversation empties exactly its message set and leaves
every other conversation's messages untouched. -/
theorem msgsFor_clear (st : Store) (cid cid' : Nat) (now : Int) :
    msgsFor (clearConversationMessages st cid now) cid' =
      if cid' = cid then [] else msgsFor st cid' := by
  by_cases h : cid' = cid
  · subst h
    simp only [msgsFor, clearConversationMessages, if_pos rfl]
    rw [List.filter_filter]
    apply List.filter_eq_nil_iff.mpr
    intro a _
    simp
  · simp only [msgsFor, clearConversationMessages, if_neg h]
    rw [List.filter_filter]
    apply List.filter_congr
    intro a _
    by_cases ha : a.conversationId = cid'
    · simp [ha, h]
    · simp [ha]

/-- A conversation with no messages left gains none from further clears. -/
theorem foldl_clear_empty (due : List Conversation) (st : Store) (cid : Nat) (now : Int)
    (h : msgsFor st cid = []) :
    msgsFor (due.foldl (fun s c => clearConversationMessages s c.id now) st) cid = [] := by
  induction due generalizing st with
  | nil => simpa using h
  | cons c rest ih =>
      simp only [List.foldl_cons]
      apply ih
      rw [msgsFor_clear]
      by_cases hc : cid = c.id <;> simp [hc, h]

/-- Folding the clear over a list containing `cid` empties `cid`'s
message set. -/
theorem foldl_clear_mem (due : List Conversation) (st : Store) (cid : Nat) (now : Int)
    (h : cid ∈ due.map (·.id)) :
    msgsFor (due.foldl (fun s c => clearConversationMessages s c.id now) st) cid = [] := by
  induction due generalizing st with
  | nil => simp at h
  | cons c rest ih =>
      simp only [List.map_cons, List.mem_cons] at h
      simp only [List.foldl_cons]
      rcases h with h | h
      · apply foldl_clear_empty
        rw [msgsFor_clear]
        simp [h]
      · exact ih _ h

theorem auth_connectedClients (st : ServerState) (c : Nat) (u : String) (hu : u ≠ "") :
    ((handleMessage st c (authMsg u)).1).connectedClients =
      mapSet st.connectedClients u c := by
  rw [handleMessage_authMsg st c u hu]

theorem auth_conns (st : ServerState) (c : Nat) (u : String) (hu : u ≠ "") :
    ((handleMessage st c (authMsg u)).1).conns = connsSetUser st.conns c u := by
  rw [handleMessage_authMsg st c u hu]

/-! ## Claim theorems: relay forwarding -/

/-- C2: for every sender bound to its connection and every inbound
signaling message with a non-empty target, if the target is registered in
the connection map and its connection is open, the relay delivers exactly
one copy of the message to the target's connection with `from` set to the
sender, and with the message's type, data payload and conversationId
fields unchanged (the whole inbound message is spread-copied into the
delivered object). -/
theorem relay_delivers_to_open_target (st : ServerState) (c tc : Nat) (u t k : String)
    (m : InMsg)
    (hbound : boundOf st c = some u) (hu : u ≠ "")
    (htype : m.type = some k) (hkind : k ∈ signalKinds)
    (htarget : m.target = some t) (ht : t ≠ "")
    (hreg : mapGet st.connectedClients t = some tc)
    (hopen : readyOf st tc = some ReadyState.OPEN) :
    handleMessage st c m =
      (st, [{ toConn := tc, payload := { msg := m, fromUser := u } }]) := by
  obtain ⟨hb, hta⟩ := not_auth_of_signalKind m k htype hkind
  simp [handleMessage, hb, hta, hbound, htarget, hreg, hopen, hu, ht]

theorem relay_delivers_to_open_target_witness :
    (boundOf stAB 1 = some "alice" ∧ mapGet stAB.connectedClients "bob" = some 2 ∧
     readyOf stAB 2 = some ReadyState.OPEN ∧ "offer" ∈ signalKinds) ∧
    handleMessage stAB 1 offerMsg =
      (stAB, [{ toConn := 2, payload := { msg := offerMsg, fromUser := "alice" } }]) :=
  ⟨⟨by decide, by decide, by decide, by decide⟩,
   relay_delivers_to_open_target stAB 1 2 "alice" "bob" "offer" offerMsg
     (by decide) (by decide) (by decide) (by decide) (by decide) (by decide)
     (by decide) (by decide)⟩

/-- C3 counterexample: the claim says a bound connection's message whose
type is not one of the seven recognized signaling kinds is dropped
without being forwarded; but the handler never inspects the type in the
forward path — a message of type `bogus` with a registered open target
is forwarded, producing one delivery rather than zero. -/
theorem unrecognized_type_forwarded_counterexample :
    (handleMessage stAB 1 bogusMsg).2 =
      [{ toConn := 2, payload := { msg := bogusMsg, fromUser := "alice" } }] := by
  decide

/-- C3 amended: for a connection that has bound an identity, an inbound
message is not filtered on its type.  A message whose type is not among
the seven recognized kinds (and which is not an auth form) is processed
by the same forward logic as a recognized one: with a truthy, registered,
open target it is delivered; a message is dropped only when it lacks a
truthy target or the target is unreachable. -/
theorem unrecognized_type_forwarded (st : ServerState) (c tc : Nat) (u t k : String)
    (m : InMsg)
    (hbound : boundOf st c = some u) (hu : u ≠ "")
    (htype : m.type = some k) (hkind : k ∉ signalKinds) (hka : k ≠ "auth") (hke : k ≠ "")
    (htarget : m.target = some t) (ht : t ≠ "")
    (hreg : mapGet st.connectedClients t = some tc)
    (hopen : readyOf st tc = some ReadyState.OPEN) :
    handleMessage st c m =
      (st, [{ toConn := tc, payload := { msg := m, fromUser := u } }]) := by
  have hb : isAuthBind m = false := by simp [isAuthBind, truthy, htype, hke]
  have hta : isAuthTyped m = false := by simp [isAuthTyped, htype, hka]
  simp [handleMessage, hb, hta, hbound, htarget, hreg, hopen, hu, ht]

theorem unrecognized_type_forwarded_witness :
    (boundOf stAB 1 = some "alice" ∧ "bogus" ∉ signalKinds ∧
     mapGet stAB.connectedClients "bob" = some 2 ∧
     readyOf stAB 2 = some ReadyState.OPEN) ∧
    handleMessage stAB 1 bogusMsg =
      (stAB, [{ toConn := 2, payload := { msg := bogusMsg, fromUser := "alice" } }]) :=
  ⟨⟨by decide, by decide, by decide, by decide⟩,
   unrecognized_type_forwarded stAB 1 2 "alice" "bob" "bogus" bogusMsg
     (by decide) (by decide) (by decide) (by decide) (by decide) (by decide)
     (by decide) (by decide) (by decide) (by decide)⟩

/-- C4: for an authenticated sender, a signaling message whose target is
not in the connection map — or whose mapped connection is not open —
yields zero deliveries, raises no error (the handler returns normally),
and leaves the server state, hence the sender's own registration and
socket, completely unchanged. -/
theorem relay_unreachable_target_no_delivery (st : ServerState) (c : Nat) (u t k : String)
    (m : InMsg)
    (hbound : boundOf st c = some u) (hu : u ≠ "")
    (htype : m.type = some k) (hkind : k ∈ signalKinds)
    (htarget : m.target = some t) (ht : t ≠ "")
    (hmiss : mapGet st.connectedClients t = none ∨
      ∀ tc, mapGet st.connectedClients t = some tc → readyOf st tc ≠ some ReadyState.OPEN) :
    handleMessage st c m = (st, []) := by
  obtain ⟨hb, hta⟩ := not_auth_of_signalKind m k htype hkind
  rcases hmiss with hmiss | hmiss
  · simp [handleMessage, hb, hta, hbound, htarget, hmiss, hu, ht]
  · cases hget : mapGet st.connectedClients t with
    | none => simp [handleMessage, hb, hta, hbound, htarget, hget, hu, ht]
    | some tc =>
        have hcl := hmiss tc hget
        simp [handleMessage, hb, hta, hbound, htarget, hget, hu, ht, hcl]

theorem relay_unreachable_target_no_delivery_witness :
    (boundOf stAB 1 = some "alice" ∧ "call-start" ∈ signalKinds ∧
     mapGet stAB.connectedClients "ghost" = none) ∧
    handleMessage stAB 1 ghostMsg = (stAB, []) :=
  ⟨⟨by decide, by decide, by decide⟩,
   relay_unreachable_target_no_delivery stAB 1 "alice" "ghost" "call-start" ghostMsg
     (by decide) (by decide) (by decide) (by decide) (by decide) (by decide)
     (Or.inl (by decide))⟩

/-- C5: a connection that has not bound an identity cannot cause any
forwarding: any inbound message carrying a truthy target produces zero
deliveries, and the originating connection's ready state is untouched
(the handler never closes a socket; an auth-shaped message may still
bind, but even then nothing is forwarded). -/
theorem unauthenticated_message_not_forwarded (st : ServerState) (c : Nat) (m : InMsg)
    (hunbound : truthy (boundOf st c) = false)
    (htarget : truthy m.target = true) :
    (handleMessage st c m).2 = [] ∧
    readyOf (handleMessage st c m).1 c = readyOf st c := by
  cases hauth : (isAuthBind m || isAuthTyped m) with
  | true =>
      cases hm : m.userId with
      | none => simp [handleMessage, hauth, hm]
      | some u =>
          refine ⟨by simp [handleMessage, hauth, hm], ?_⟩
          have hst : (handleMessage st c m).1 =
              { conns := connsSetUser st.conns c u,
                connectedClients := mapSet st.connectedClients u c } := by
            simp [handleMessage, hauth, hm]
          rw [hst]
          exact readyOf_after_setUser st _ c c u
  | false =>
      cases hb : boundOf st c with
      | none => simp [handleMessage, hauth, hb]
      | some u =>
          rw [hb] at hunbound
          simp only [truthy, ne_eq, decide_not, Bool.not_eq_false', decide_eq_true_eq]
            at hunbound
          cases htg : m.target with
          | none => simp [handleMessage, hauth, hb, htg]
          | some t => simp [handleMessage, hauth, hb, htg, hunbound]

theorem unauthenticated_message_not_forwarded_witness :
    (truthy (boundOf stUnbound 3) = false ∧ truthy offerMsg.target = true) ∧
    (handleMessage stUnbound 3 offerMsg).2 = [] ∧
    readyOf (handleMessage stUnbound 3 offerMsg).1 3 = readyOf stUnbound 3 :=
  ⟨⟨by decide, by decide⟩,
   unauthenticated_message_not_forwarded stUnbound 3 offerMsg (by decide) (by decide)⟩

/-! ## Claim theorems: registry -/

/-- C6: after connection `c1` registers under an identity and `c2` then
registers under the same identity, a lookup of that identity returns
`c2`'s connection and never `c1`'s (last-registered wins); and the
connection map keeps at most one entry per identity at each step of the
sequence (`Map.set` replaces in place). -/
theorem registry_last_write_wins (st st1 st2 : ServerState) (c1 c2 : Nat) (u : String)
    (hu : u ≠ "") (hne : c1 ≠ c2)
    (hnodup : (keysOf st.connectedClients).Nodup)
    (h1 : st1 = (handleMessage st c1 (authMsg u)).1)
    (h2 : st2 = (handleMessage st1 c2 (authMsg u)).1) :
    mapGet st2.connectedClients u = some c2 ∧
    mapGet st2.connectedClients u ≠ some c1 ∧
    (keysOf st1.connectedClients).Nodup ∧
    (keysOf st2.connectedClients).Nodup := by
  subst h2
  subst h1
  rw [auth_connectedClients _ c2 u hu, auth_connectedClients st c1 u hu]
  refine ⟨mapGet_mapSet_self _ _ _, ?_, ?_, ?_⟩
  · rw [mapGet_mapSet_self]
    simp only [ne_eq, Option.some.injEq]
    exact fun hh => hne hh.symm
  · exact nodup_keysOf_mapSet _ _ _ hnodup
  · exact nodup_keysOf_mapSet _ _ _ (nodup_keysOf_mapSet _ _ _ hnodup)

theorem registry_last_write_wins_witness :
    (("u" : String) ≠ "" ∧ (1 : Nat) ≠ 2 ∧ (keysOf stTwoSockets.connectedClients).Nodup ∧
     stW1 = (handleMessage stTwoSockets 1 (authMsg "u")).1 ∧
     stW2 = (handleMessage stW1 2 (authMsg "u")).1) ∧
    (mapGet stW2.connectedClients "u" = some 2 ∧
     mapGet stW2.connectedClients "u" ≠ some 1 ∧
     (keysOf stW1.connectedClients).Nodup ∧
     (keysOf stW2.connectedClients).Nodup) :=
  ⟨⟨by decide, by decide, by decide, by decide, by decide⟩,
   registry_last_write_wins stTwoSockets stW1 stW2 1 2 "u"
     (by decide) (by decide) (by decide) (by decide) (by decide)⟩

/-- C10 (implicit behavior): after `c1` authenticates as `u`, then `c2`
authenticates as `u` (replacing `c1`'s registry entry), the firing of
`c1`'s close handler deletes the registry entry for `u` unconditionally —
so the lookup of `u` afterwards returns absent even though `c2`'s socket
is untouched (its ready state is exactly what it was): the close of a
superseded connection removes the live replacement's registration. -/
theorem close_after_takeover_unregisters_live (st st1 st2 st3 : ServerState)
    (c1 c2 : Nat) (u : String) (cs1 : ConnState)
    (hu : u ≠ "") (hne : c1 ≠ c2)
    (hc1 : mapGet st.conns c1 = some cs1)
    (h1 : st1 = (handleMessage st c1 (authMsg u)).1)
    (h2 : st2 = (handleMessage st1 c2 (authMsg u)).1)
    (h3 : st3 = handleClose st2 c1) :
    mapGet st2.connectedClients u = some c2 ∧
    mapGet st3.connectedClients u = none ∧
    readyOf st3 c2 = readyOf st c2 := by
  subst h3
  subst h2
  subst h1
  have hcc2 : ((handleMessage ((handleMessage st c1 (authMsg u)).1) c2 (authMsg u)).1).connectedClients
      = mapSet (mapSet st.connectedClients u c1) u c2 := by
    rw [auth_connectedClients _ c2 u hu, auth_connectedClients st c1 u hu]
  have hconns2 : ((handleMessage ((handleMessage st c1 (authMsg u)).1) c2 (authMsg u)).1).conns
      = connsSetUser (connsSetUser st.conns c1 u) c2 u := by
    rw [auth_conns _ c2 u hu, auth_conns st c1 u hu]
  have hbound2 : boundOf ((handleMessage ((handleMessage st c1 (authMsg u)).1) c2 (authMsg u)).1) c1
      = some u := by
    unfold boundOf
    rw [hconns2, mapGet_connsSetUser]
    rw [if_neg hne]
    rw [mapGet_connsSetUser, if_pos rfl, hc1]
    rfl
  refine ⟨?_, ?_, ?_⟩
  · rw [hcc2]
    exact mapGet_mapSet_self _ _ _
  · simp only [handleClose, hbound2, hu, ne_eq, not_false_eq_true, if_true, ite_true]
    exact mapGet_mapDelete_self _ _
  · simp only [handleClose, hbound2, hu, ne_eq, not_false_eq_true, if_true, ite_true,
      readyOf]
    rw [hconns2, mapGet_connsSetUser, if_pos rfl, mapGet_connsSetUser,
      if_neg (fun hh => hne hh.symm)]
    cases mapGet st.conns c2 <;> rfl

theorem close_after_takeover_unregisters_live_witness :
    (("u" : String) ≠ "" ∧ (1 : Nat) ≠ 2 ∧
     mapGet stTwoSockets.conns 1 =
       some { userId := none, readyState := ReadyState.OPEN } ∧
     stW1 = (handleMessage stTwoSockets 1 (authMsg "u")).1 ∧
     stW2 = (handleMessage stW1 2 (authMsg "u")).1 ∧
     stW3 = handleClose stW2 1) ∧
    (mapGet stW2.connectedClients "u" = some 2 ∧
     mapGet stW3.connectedClients "u" = none ∧
     readyOf stW3 2 = readyOf stTwoSockets 2) :=
  ⟨⟨by decide, by decide, by decide, by decide, by decide, by decide⟩,
   close_after_takeover_unregisters_live stTwoSockets stW1 stW2 stW3 1 2 "u"
     { userId := none, readyState := ReadyState.OPEN }
     (by decide) (by decide) (by decide) (by decide) (by decide) (by decide)⟩

/-! ## Claim theorems: retention -/

/-- C1 counterexample: the claim classifies a conversation as due when
`now − lastActivity ≥ threshold`, but the code's WHERE clause tests
`lastMessageAt < now − threshold`, i.e. strict excess over the
threshold.  At exactly the threshold (policy `24h`, elapsed exactly 24
hours) the spec classifier says due while the code does not select the
conversation. -/
theorem classifier_boundary_counterexample :
    isDueSpec convA msPerDay = true ∧ dueClause msPerDay convA = false := by
  decide

/-- C1 amended: for every conversation whose policy is one of the four
recognized values and every sweep time `now`, the code classifies it as
due iff its policy is not `never` and `now − lastActivity` is STRICTLY
GREATER than the policy's threshold (24 hours, 7 days, 30 days); a
`never` conversation is never due, regardless of elapsed time. -/
theorem classifier_strict_threshold (c : Conversation) (now : Int)
    (hpol : c.autoClearAfter ∈ ["24h", "1week", "30days", "never"]) :
    dueClause now c = true ↔
      (c.autoClearAfter ≠ "never" ∧
       ∃ th, threshold c.autoClearAfter = some th ∧ now - c.lastMessageAt > th) := by
  simp only [List.mem_cons, List.not_mem_nil, or_false] at hpol
  rcases hpol with h | h | h | h <;>
    simp [dueClause, threshold, h, msPerDay] <;> omega

theorem classifier_strict_threshold_witness :
    (convA.autoClearAfter ∈ ["24h", "1week", "30days", "never"]) ∧
    (dueClause (2 * msPerDay) convA = true ↔
      (convA.autoClearAfter ≠ "never" ∧
       ∃ th, threshold convA.autoClearAfter = some th ∧
         2 * msPerDay - convA.lastMessageAt > th)) :=
  ⟨by decide, classifier_strict_threshold convA (2 * msPerDay) (by decide)⟩

/-- C7: every conversation cleared by a sweep at time `t` has an empty
message set afterwards, and a second sweep immediately after deletes no
messages for it — its message set is unchanged (still empty), so the
clear applied twice equals the clear applied once. -/
theorem sweep_idempotent_for_cleared (st : Store) (now : Int) (cid : Nat)
    (hdue : cid ∈ (getConversationsToClean st.conversations now).map (·.id)) :
    msgsFor (sweep st now) cid = [] ∧
    msgsFor (sweep (sweep st now) now) cid = msgsFor (sweep st now) cid := by
  have h1 : msgsFor (sweep st now) cid = [] := by
    unfold sweep
    exact foldl_clear_mem _ _ _ _ hdue
  refine ⟨h1, ?_⟩
  rw [h1]
  show msgsFor ((getConversationsToClean (sweep st now).conversations now).foldl
      (fun s c => clearConversationMessages s c.id now) (sweep st now)) cid = []
  exact foldl_clear_empty _ _ _ _ h1

theorem sweep_idempotent_for_cleared_witness :
    (1 ∈ (getConversationsToClean storeA.conversations (2 * msPerDay)).map (·.id)) ∧
    msgsFor (sweep storeA (2 * msPerDay)) 1 = [] ∧
    msgsFor (sweep (sweep storeA (2 * msPerDay)) (2 * msPerDay)) 1 =
      msgsFor (sweep storeA (2 * msPerDay)) 1 :=
  ⟨by decide, sweep_idempotent_for_cleared storeA (2 * msPerDay) 1 (by decide)⟩

/-! ## Claim theorems: broadcast -/

/-- C8: a send failure on one connection does not prevent delivery of the
event to the remaining registered connections and does not abort the
broadcast.  The failure oracle `fails` is arbitrary — in particular it
may mark every other socket's send as failing — yet each registered open
connection still receives its send attempt, whose outcome depends only
on that connection's own entry in the oracle.  (`ws.send` on an OPEN
socket reports errors asynchronously, so no failure can throw out of the
`forEach`.) -/
theorem broadcast_send_failure_isolated (st : ServerState) (cid c : Nat) (u : String)
    (ev : BroadcastEvent) (fails : Nat → Bool)
    (hreg : (u, c) ∈ st.connectedClients)
    (hopen : readyOf st c = some ReadyState.OPEN)
    (hok : fails c = false) :
    { toConn := c,
      sent := { type := ev.type, conversationId := cid, data := ev.data },
      ok := true } ∈ broadcastMessage st cid ev fails := by
  unfold broadcastMessage
  apply List.mem_filterMap.mpr
  refine ⟨(u, c), hreg, ?_⟩
  simp [hopen, hok]

theorem broadcast_send_failure_isolated_witness :
    (("bob", 2) ∈ stAB.connectedClients ∧ readyOf stAB 2 = some ReadyState.OPEN ∧
     failsAllButTwo 2 = false ∧ failsAllButTwo 1 = true) ∧
    { toConn := 2,
      sent := { type := evA.type, conversationId := 1, data := evA.data },
      ok := true } ∈ broadcastMessage stAB 1 evA failsAllButTwo :=
  ⟨⟨by decide, by decide, by decide, by decide⟩,
   broadcast_send_failure_isolated stAB 1 2 "bob" evA failsAllButTwo
     (by decide) (by decide) (by decide)⟩

/-- C9: a broadcast of a stored-message event for conversation `conv`
delivers the event, tagged with `conv`'s id, to every connection present
in the connection map whose socket is open — the identity `u` under
which the connection is registered is arbitrary, in particular it need
not be a participant of `conv` (no participation check exists in the
broadcast path). -/
theorem broadcast_reaches_all_open (st : ServerState) (conv : Conversation)
    (ev : BroadcastEvent) (fails : Nat → Bool) (u : String) (c : Nat)
    (hreg : (u, c) ∈ st.connectedClients)
    (hopen : readyOf st c = some ReadyState.OPEN) :
    ∃ a ∈ broadcastMessage st conv.id ev fails,
      a.toConn = c ∧ a.sent.conversationId = conv.id ∧
      a.sent.type = ev.type ∧ a.sent.data = ev.data := by
  refine ⟨{ toConn := c,
            sent := { type := ev.type, conversationId := conv.id, data := ev.data },
            ok := !fails c }, ?_, rfl, rfl, rfl, rfl⟩
  unfold broadcastMessage
  apply List.mem_filterMap.mpr
  exact ⟨(u, c), hreg, by simp [hopen]⟩

theorem broadcast_reaches_all_open_witness :
    (("alice", 1) ∈ stAB.connectedClients ∧ readyOf stAB 1 = some ReadyState.OPEN ∧
     "alice" ≠ convCD.participant1Id ∧ "alice" ≠ convCD.participant2Id) ∧
    (∃ a ∈ broadcastMessage stAB convCD.id evA failsAllButTwo,
      a.toConn = 1 ∧ a.sent.conversationId = convCD.id ∧
      a.sent.type = evA.type ∧ a.sent.data = evA.data) :=
  ⟨⟨by decide, by decide, by decide, by decide⟩,
   broadcast_reaches_all_open stAB convCD evA failsAllButTwo "alice" 1
     (by decide) (by decide)⟩

end SecureChat
